import Mathlib

/-!
Shallow embedding of the CEphysics repository (population-synthesis driver and
statistical post-processing scripts) and proofs of the frozen claims.

Conventions used throughout:
* Python floats are modelled as rationals (`ℚ`).  Transcendental library
  routines (`scipy.stats.beta.ppf`, `alpha ** (1/n)`, `np.sqrt`) are modelled
  as oracle function parameters, since only the call structure matters to the
  claims.
* `NaN` / `None` cells are modelled with `Option`.
* Randomness (`np.random.choice`, `DataFrame.sample`) is modelled by an
  oracle `pick : ℕ → ℕ` giving the index drawn for each slot; `pick j %
  data.length` guarantees the draw is from the data, which is exactly the
  guarantee the numpy/pandas samplers provide.  Distinctness of
  `DataFrame.sample(replace=False)` draws is not needed by any claim and is
  not modelled.
* Exceptions are modelled with `Except` / `Option` outcomes.
-/

namespace CEphysics

/-! ## Shared numeric helpers (models of the numpy routines the scripts call) -/

/-- Model of `np.mean` on a rational list (empty list gives `0`, as `0/0 = 0`
in `ℚ`; numpy would give `nan`, which no claim depends on). -/
def listMean (l : List ℚ) : ℚ := l.sum / (l.length : ℚ)

/-- Model of the variance computed by `np.std(...)**2` with `ddof = 0`
(population variance).  `np.std` itself is `sqrtFn` applied to this value,
with `sqrtFn` an oracle for the irrational square root. -/
def listVar (l : List ℚ) : ℚ :=
  ((l.map (fun x => (x - listMean l) ^ 2)).sum) / (l.length : ℚ)

/-- Model of `np.percentile(l, q)` with the default linear interpolation:
on the ascending sort `s` of `l`, the virtual index is
`pos = (len - 1) * q / 100` and the result interpolates between
`s[⌊pos⌋]` and `s[⌊pos⌋ + 1]`. -/
def percentile (l : List ℚ) (q : ℚ) : ℚ :=
  let s := List.insertionSort (fun a b => a ≤ b) l
  if s.length = 0 then 0
  else
    let pos : ℚ := ((s.length : ℚ) - 1) * q / 100
    let i : ℕ := min (Int.toNat (Rat.floor pos)) (s.length - 1)
    let lo := s.getD i 0
    let hi := s.getD (min (i + 1) (s.length - 1)) 0
    lo + (pos - (i : ℚ)) * (hi - lo)

/-- Model of drawing `k` elements from `data` with replacement
(`np.random.choice(data, size=k, replace=True)` and
`DataFrame.sample(n=k, replace=True)`): the RNG is the oracle `pick`,
and reducing modulo `data.length` models that the library only ever
draws indices into `data`. -/
def sampleWithReplacement {α : Type} (data : List α) (d : α) (pick : ℕ → ℕ) (k : ℕ) :
    List α :=
  (List.range k).map (fun j => data.getD (pick j % data.length) d)

/-- Property used to state the bootstrap claims: `rates` consists of `n`
values, each of which is `100 *` the `cnt`-proportion of some multiset of
`data.length` elements drawn from `data`. -/
def drawnRates {α : Type} (data : List α) (cnt : α → Bool) (n : ℕ) (rates : List ℚ) :
    Prop :=
  rates.length = n ∧
    ∀ q ∈ rates, ∃ s : List α, s.length = data.length ∧ (∀ x ∈ s, x ∈ data) ∧
      q = ((s.countP cnt : ℚ) / (data.length : ℚ)) * 100

/-! ## run_population.py -/

/-- One row of the initial-conditions grid built by `create_binary_grid`. -/
structure GridRow where
  M1 : ℚ
  M2 : ℚ
  P_orb : ℚ
  Z : ℚ
  q : ℚ
deriving DecidableEq

/-- Model of `np.linspace(a, b, n)`: `n` evenly spaced points from `a` to `b`
(for `n = 1` the division by zero in `ℚ` yields `a`, matching numpy). -/
def linspace (a b : ℚ) (n : ℕ) : List ℚ :=
  (List.range n).map (fun (i : ℕ) => a + (i : ℚ) * (b - a) / ((n : ℚ) - 1))

/-- The full Cartesian grid built by `create_binary_grid` before optional
sampling: for each metallicity, each `M1`, each `M2` with `M1 >= M2`, and
each period in the (log-spaced, hence oracle) period grid, one row with
`q = M2 / M1`.  `logspaceFn` is the oracle for
`np.logspace(log10(P_min), log10(P_max), n)`, whose entries are irrational. -/
def full_binary_grid (logspaceFn : ℚ → ℚ → ℕ → List ℚ)
    (M1_range M2_range : ℚ × ℚ × ℕ) (P_range : ℚ × ℚ × ℕ)
    (metallicities : List ℚ) : List GridRow :=
  let M1_grid := linspace M1_range.1 M1_range.2.1 M1_range.2.2
  let M2_grid := linspace M2_range.1 M2_range.2.1 M2_range.2.2
  let P_grid := logspaceFn P_range.1 P_range.2.1 P_range.2.2
  metallicities.flatMap (fun Z =>
    M1_grid.flatMap (fun M1 =>
      M2_grid.flatMap (fun M2 =>
        if M2 ≤ M1 then
          P_grid.map (fun P => { M1 := M1, M2 := M2, P_orb := P, Z := Z, q := M2 / M1 })
        else [])))

/-- Model of `create_binary_grid`: build the full grid, then, mirroring the
Python truthiness test `if n_samples and n_samples < len(df)`, sample
`n_samples` rows only when `n_samples` is given, nonzero and smaller than the
grid. -/
def create_binary_grid (logspaceFn : ℚ → ℚ → ℕ → List ℚ) (pick : ℕ → ℕ)
    (M1_range M2_range : ℚ × ℚ × ℕ) (P_range : ℚ × ℚ × ℕ)
    (metallicities : List ℚ) (n_samples : Option ℕ) : List GridRow :=
  let df := full_binary_grid logspaceFn M1_range M2_range P_range metallicities
  match n_samples with
  | some k =>
      if k ≠ 0 ∧ k < df.length then
        sampleWithReplacement df { M1 := 0, M2 := 0, P_orb := 0, Z := 0, q := 0 } pick k
      else df
  | none => df

/-- The POSYDON `sim_kwargs` dictionary: step name to `some dict` when the
step entry has a dictionary of keyword arguments as its second element
(`len(sim_kwargs[step]) > 1` and `isinstance(..., dict)`), `none` otherwise.
The dictionary itself is name-to-rational. -/
def SimKwargs : Type := List (String × Option (List (String × ℚ)))

/-- Python `dict.update({key: v})`: replace the value at `key` in place, or
append the binding if `key` is absent. -/
def dictSet (d : List (String × ℚ)) (key : String) (v : ℚ) : List (String × ℚ) :=
  if d.any (fun p => p.1 == key) then
    d.map (fun p => if p.1 == key then (p.1, v) else p)
  else d ++ [(key, v)]

/-- The MESA-grid step names whose kwargs receive the metallicity. -/
def mesaSteps : List String :=
  ["step_HMS_HMS", "step_CO_HeMS", "step_CO_HMS_RLO", "step_CO_HeMS_RLO"]

/-- Model of `setup_simulation_properties(metallicity, alpha_CE)`: starting
from the ini-file kwargs `base`, set `metallicity / 0.014` in the kwargs of
every MESA step that has a kwargs dict, and hand the result to
`SimulationProperties`.  Exactly as in the source, `alpha_CE` is accepted but
never used. -/
def setup_simulation_properties (base : SimKwargs) (metallicity alpha_CE : ℚ) :
    SimKwargs :=
  base.map (fun entry =>
    if entry.1 ∈ mesaSteps then
      match entry.2 with
      | some d => (entry.1, some (dictSet d "metallicity" (metallicity / (7 / 500))))
      | none => entry
    else entry)

/-- Model of `posydon.binary_evol.singlestar.SingleStar`. -/
structure SingleStar where
  mass : ℚ
  state : String
deriving DecidableEq

/-- The `BinaryStar` as constructed in `evolve_binary`, holding exactly the
constructor arguments passed there. -/
structure BinaryInit where
  star1 : SingleStar
  star2 : SingleStar
  time : ℚ
  state : String
  event : String
  orbital_period : ℚ
  eccentricity : ℚ
  properties : SimKwargs

/-- Model of `evolve_binary(M1, M2, P_orb, Z, sim_prop)`: construct the two
`H-rich_Core_H_burning` stars and the ZAMS binary, then call the external
`binary.evolve()`, modelled by the oracle `evolveFn`.  Exactly as in the
source, `Z` is accepted but never used. -/
def evolve_binary (evolveFn : BinaryInit → BinaryInit)
    (M1 M2 P_orb Z : ℚ) (sim_prop : SimKwargs) : BinaryInit :=
  evolveFn
    { star1 := { mass := M1, state := "H-rich_Core_H_burning" }
      star2 := { mass := M2, state := "H-rich_Core_H_burning" }
      time := 0
      state := "detached"
      event := "ZAMS"
      orbital_period := P_orb
      eccentricity := 0
      properties := sim_prop }

/-- One row of the history `DataFrame` returned by `binary.to_df()`.  A
`none` event cell is `NaN` (excluded by `str.contains('CE', na=False)`); a
`none` lambda cell is `NaN`. -/
structure HistRow where
  event : Option String
  lambda_CE_1Msun : Option ℚ
  star_1_state : String
deriving DecidableEq

/-- The history `DataFrame`: which optional columns are present, plus the
rows. -/
structure HistoryDF where
  has_event : Bool
  has_lambda : Bool
  has_state1 : Bool
  rows : List HistRow
deriving DecidableEq

/-- An evolved binary as observed by `extract_CE_data`: final scalar
attributes plus the history (`none` when `to_df` is absent or raises). -/
structure EvolvedBinary where
  state : String
  star1_mass : ℚ
  star2_mass : ℚ
  orbital_period : ℚ
  history : Option HistoryDF
deriving DecidableEq

/-- Substring test on the character list: does `CE` occur? -/
def hasCEsub : List Char → Bool
  | 'C' :: 'E' :: _ => true
  | _ :: rest => hasCEsub rest
  | [] => false

/-- Model of `series.str.contains('CE')` on one cell. -/
def containsCE (s : String) : Bool := hasCEsub s.data

/-- The rows selected by
`history_df[history_df['event'].str.contains('CE', na=False)]`. -/
def ceEventRows (h : HistoryDF) : List HistRow :=
  h.rows.filter (fun r =>
    match r.event with
    | some s => containsCE s
    | none => false)

/-- The flat per-binary result record built by `extract_CE_data`
(`None`/`NaN` modelled by `Option`). -/
structure CEData where
  M1_initial : ℚ
  M2_initial : ℚ
  P_initial : ℚ
  Z : ℚ
  q_initial : ℚ
  CE_occurred : Bool
  lambda_CE : Option ℚ
  donor_state : Option String
  survived_CE : Bool
  final_state : String
  final_M1 : ℚ
  final_M2 : ℚ
  final_P : ℚ
deriving DecidableEq

/-- Model of `extract_CE_data(binary, initial_conditions)`: initialise the
record with the copied initial conditions, the defaults and the final-state
attributes, then, if the history is available and has an `event` column with
a CE row, fill in the CE fields from the first CE event. -/
def extract_CE_data (binary : EvolvedBinary) (ic : GridRow) : CEData :=
  let base : CEData :=
    { M1_initial := ic.M1
      M2_initial := ic.M2
      P_initial := ic.P_orb
      Z := ic.Z
      q_initial := ic.q
      CE_occurred := false
      lambda_CE := none
      donor_state := none
      survived_CE := false
      final_state := binary.state
      final_M1 := binary.star1_mass
      final_M2 := binary.star2_mass
      final_P := binary.orbital_period }
  match binary.history with
  | none => base
  | some h =>
      if h.has_event then
        match ceEventRows h with
        | [] => base
        | ce_row :: _ =>
            { base with
              CE_occurred := true
              lambda_CE := if h.has_lambda then ce_row.lambda_CE_1Msun else none
              donor_state := if h.has_state1 then some ce_row.star_1_state else none
              survived_CE := !(["merged", "initial_RLOF", "disrupted"].contains binary.state) }
      else base

/-- Does the binary's history contain a CE event visible to
`extract_CE_data`? -/
def hasCEEvent (binary : EvolvedBinary) : Bool :=
  match binary.history with
  | none => false
  | some h => h.has_event && !(ceEventRows h).isEmpty

/-- One row appended to `results` in `run_population`: the extracted record
on success, or the initial conditions plus the error string when evolving
the binary raised. -/
inductive ResultRow where
  | ok (r : CEData)
  | err (M1 M2 P Z : ℚ) (msg : String)
deriving DecidableEq

/-- Model of the `run_population` accumulation loop: one result per grid row,
with the `try/except` around evolution modelled by `evolveFn` returning
`Except`. -/
def run_population (evolveFn : GridRow → Except String EvolvedBinary) :
    List GridRow → List ResultRow
  | [] => []
  | row :: rest =>
      (match evolveFn row with
        | Except.ok b => ResultRow.ok (extract_CE_data b row)
        | Except.error e => ResultRow.err row.M1 row.M2 row.P_orb row.Z e) ::
      run_population evolveFn rest

/-- Default `GridRow`, used only as the out-of-range value of `getD`. -/
def gridDefault : GridRow := { M1 := 0, M2 := 0, P_orb := 0, Z := 0, q := 0 }

/-- Default `ResultRow`, used only as the out-of-range value of `getD`. -/
def rowDefault : ResultRow := ResultRow.err 0 0 0 0 ""

/-- Concrete history row with a CE event, used by witnesses. -/
def exampleCERow : HistRow :=
  { event := some "oCE1", lambda_CE_1Msun := some (1 / 10), star_1_state := "HeS" }

/-- Concrete history with a CE event and all columns, used by witnesses. -/
def exampleHistory : HistoryDF :=
  { has_event := true, has_lambda := true, has_state1 := true, rows := [exampleCERow] }

/-- Concrete history with a CE event but no lambda column, used by
witnesses. -/
def exampleHistoryNoLambda : HistoryDF :=
  { has_event := true, has_lambda := false, has_state1 := true, rows := [exampleCERow] }

/-- Concrete evolved binary with a surviving CE event, used by witnesses. -/
def exampleBinaryCE : EvolvedBinary :=
  { state := "detached", star1_mass := 2, star2_mass := 1, orbital_period := 5,
    history := some exampleHistory }

/-- Concrete evolved binary whose history lacks the lambda column, used by
witnesses. -/
def exampleBinaryNoLambda : EvolvedBinary :=
  { state := "detached", star1_mass := 2, star2_mass := 1, orbital_period := 5,
    history := some exampleHistoryNoLambda }

/-- Concrete evolved binary with no history, used by witnesses. -/
def exampleBinaryNoHistory : EvolvedBinary :=
  { state := "merged", star1_mass := 2, star2_mass := 1, orbital_period := 5,
    history := none }

/-! ## final_analysis.py (identical `wilson_ci` copies also live in
analyze_mechanisms.py and scripts/analyze_alpha_sweep.py) -/

/-- Model of `wilson_ci(k, n, alpha)`.  `betaPpf q a b` is the oracle for
`scipy.stats.beta.ppf(q, a, b)` (the inverse regularised incomplete beta
function) and `powInv a n` the oracle for the irrational `a ** (1/n)`; the
`scipy` arguments `k`, `n-k+1`, `k+1`, `n-k` are Python ints, hence signed,
hence modelled in `ℚ` by casting.  The branch structure, including the two
inner guards that are redundant in their branch, mirrors the source. -/
def wilson_ci (betaPpf : ℚ → ℚ → ℚ → ℚ) (powInv : ℚ → ℕ → ℚ)
    (k n : ℕ) (alpha : ℚ) : ℚ × ℚ :=
  if n = 0 then (0, 0)
  else
    let lu : ℚ × ℚ :=
      if k = 0 then (0, 1 - powInv alpha n)
      else if k = n then (powInv alpha n, 1)
      else
        ((if 0 < k then betaPpf (alpha / 2) (k : ℚ) ((n : ℚ) - (k : ℚ) + 1) else 0),
         (if k < n then betaPpf (1 - alpha / 2) ((k : ℚ) + 1) ((n : ℚ) - (k : ℚ)) else 1))
    (lu.1 * 100, lu.2 * 100)

/-! ## scripts/bootstrap_analysis.py -/

/-- The four statistics returned by `bootstrap_rate` (the returned
`distribution` array is not modelled; no claim mentions it). -/
structure BootStats where
  mean : ℚ
  std : ℚ
  CI_low : ℚ
  CI_high : ℚ
deriving DecidableEq

/-- The bootstrap percentages computed inside `bootstrap_rate`: for each of
the `n_iterations` iterations, resample `data` with replacement at its own
size and take the proportion of `true` entries times 100. -/
def bootstrapRates (pick : ℕ → ℕ → ℕ) (data : List Bool) (n_iterations : ℕ) :
    List ℚ :=
  (List.range n_iterations).map (fun i =>
    (((sampleWithReplacement data false (pick i) data.length).countP (fun b => b) : ℚ) /
        (data.length : ℚ)) * 100)

/-- Model of `bootstrap_rate(data, n_iterations, alpha)`.  `pick` is the RNG
oracle (one index stream per iteration) and `sqrtFn` the oracle for the
square root inside `np.std`. -/
def bootstrap_rate (pick : ℕ → ℕ → ℕ) (sqrtFn : ℚ → ℚ)
    (data : List Bool) (n_iterations : ℕ) (alpha : ℚ) : BootStats :=
  if data.length = 0 then { mean := 0, std := 0, CI_low := 0, CI_high := 0 }
  else
    let rates := bootstrapRates pick data n_iterations
    { mean := listMean rates
      std := sqrtFn (listVar rates)
      CI_low := percentile rates (alpha / 2 * 100)
      CI_high := percentile rates ((1 - alpha / 2) * 100) }

/-- A CE-event record as consumed by `bootstrap_survival_by_lambda`
(`main` feeds it only rows with `CE_occurred == True` and a non-NaN
`lambda_CE`, so the lambda here is a plain rational). -/
structure CERec where
  lambda_CE : ℚ
  survived_CE : Bool
deriving DecidableEq

/-- The bin-membership mask
`(ce_data['lambda_CE'] >= bin_min) & (ce_data['lambda_CE'] < bin_max)`
for bin `i` of the edge list. -/
def binPred (lambda_bins : List ℚ) (i : ℕ) (r : CERec) : Bool :=
  decide (lambda_bins.getD i 0 ≤ r.lambda_CE) &&
    decide (r.lambda_CE < lambda_bins.getD (i + 1) 0)

/-- The records of `ce_data` falling in bin `i`. -/
def binData (ce_data : List CERec) (lambda_bins : List ℚ) (i : ℕ) : List CERec :=
  ce_data.filter (binPred lambda_bins i)

/-- The within-bin bootstrap survival percentages: for each iteration,
resample the bin's records with replacement at the bin's size and take the
percentage of survivors. -/
def survivalRates (pick : ℕ → ℕ → ℕ) (bin_data : List CERec) (n_iterations : ℕ) :
    List ℚ :=
  (List.range n_iterations).map (fun i =>
    (((sampleWithReplacement bin_data { lambda_CE := 0, survived_CE := false }
          (pick i) bin_data.length).countP (fun r => r.survived_CE) : ℚ) /
        (bin_data.length : ℚ)) * 100)

/-- One row of the DataFrame returned by `bootstrap_survival_by_lambda`
(the formatted `Lambda_Bin` label string is presentation only and is not
modelled). -/
structure BinRow where
  Lambda_Min : ℚ
  Lambda_Max : ℚ
  N_Systems : ℕ
  Mean_Survival : ℚ
  Std_Survival : ℚ
  CI_Low : ℚ
  CI_High : ℚ
deriving DecidableEq

/-- The row built for a (non-empty) bin `i`: edge values, system count, and
the bootstrap statistics of the within-bin survival percentages
(`np.percentile(..., 2.5)` and `97.5`). -/
def binRowOf (pick : ℕ → ℕ → ℕ → ℕ) (sqrtFn : ℚ → ℚ) (ce_data : List CERec)
    (lambda_bins : List ℚ) (n_iterations : ℕ) (i : ℕ) : BinRow :=
  let bd := binData ce_data lambda_bins i
  let rates := survivalRates (pick i) bd n_iterations
  { Lambda_Min := lambda_bins.getD i 0
    Lambda_Max := lambda_bins.getD (i + 1) 0
    N_Systems := bd.length
    Mean_Survival := listMean rates
    Std_Survival := sqrtFn (listVar rates)
    CI_Low := percentile rates (5 / 2)
    CI_High := percentile rates (195 / 2) }

/-- Model of `bootstrap_survival_by_lambda(ce_data, lambda_bins,
n_iterations)`: for each of the `len(lambda_bins) - 1` bins, skip it when no
record falls inside (`continue`), else append the bin's row. -/
def bootstrap_survival_by_lambda (pick : ℕ → ℕ → ℕ → ℕ) (sqrtFn : ℚ → ℚ)
    (ce_data : List CERec) (lambda_bins : List ℚ) (n_iterations : ℕ) :
    List BinRow :=
  (List.range (lambda_bins.length - 1)).filterMap (fun i =>
    if (binData ce_data lambda_bins i).length = 0 then none
    else some (binRowOf pick sqrtFn ce_data lambda_bins n_iterations i))

/-! ## scripts/alpha_sweep.py -/

/-- The per-simulation configuration entries of `SIMULATIONS` that the
checkpoint/skip logic reads. -/
structure SimCfg where
  name : String
  output : String
deriving DecidableEq

/-- The checkpoint dictionary, name to status string (the source stores
`{'status': ..., 'message': ..., 'timestamp': ...}`; only `status` is read,
so only it is modelled).  Insertion prepends, so `List.lookup` sees the most
recent binding, matching Python dict assignment. -/
def Checkpoint : Type := List (String × String)

/-- Python `checkpoint[name] = {'status': v, ...}`. -/
def cpSet (cp : Checkpoint) (name v : String) : Checkpoint := (name, v) :: cp

/-- Does the checkpoint record `name` with status `complete`?  This is
`sim['name'] in checkpoint and checkpoint[name].get('status') == 'complete'`. -/
def cpComplete (cp : Checkpoint) (name : String) : Bool :=
  match List.lookup name cp with
  | some status => status == "complete"
  | none => false

/-- Model of `load_checkpoint()`: the file-system outcome is
`fileExists` and, when the file exists, `readResult` is `some` parsed
checkpoint or `none` when reading/parsing raised. -/
def load_checkpoint (fileExists : Bool) (readResult : Option Checkpoint) :
    Checkpoint :=
  if fileExists then
    match readResult with
    | some cp => cp
    | none => []
  else []

/-- The skip test of the scanning loop in `run_sweep`: skip when the output
file exists and validates, or when the checkpoint marks the simulation
complete (an existing-but-invalid file falls through to the checkpoint
test). -/
def skipSim (fileExists validate : String → Bool) (cp : Checkpoint)
    (sim : SimCfg) : Bool :=
  (fileExists sim.output && validate sim.output) || cpComplete cp sim.name

/-- The scanning phase of `run_sweep`: split `SIMULATIONS` into the
`to_run` and `skipped` lists. -/
def scanSims (fileExists validate : String → Bool) (cp : Checkpoint)
    (sims : List SimCfg) : List SimCfg × List SimCfg :=
  (sims.filter (fun s => !skipSim fileExists validate cp s),
   sims.filter (fun s => skipSim fileExists validate cp s))

/-- Outcome of the `subprocess.run(..., timeout=7200)` call inside
`run_simulation`: normal exit with a return code, `TimeoutExpired`, or any
other exception with its message. -/
inductive ProcOutcome where
  | exited (code : Int)
  | timedOut
  | excRaised (msg : String)
deriving DecidableEq

/-- Model of `run_simulation(sim_config, dry_run)`, returning the
`(success, message)` pair.  The duration formatting inside the success
message is not modelled. -/
def run_simulation (outcome : ProcOutcome) (validate : String → Bool)
    (sim : SimCfg) (dry_run : Bool) : Bool × String :=
  if dry_run then (true, "Dry run - not executed")
  else
    match outcome with
    | ProcOutcome.exited code =>
        if code = 0 then
          if validate sim.output then (true, "Success")
          else (false, "Output validation failed")
        else (false, "Exit code " ++ toString code)
    | ProcOutcome.timedOut => (false, "Timeout")
    | ProcOutcome.excRaised e => (false, e)

/-- The execution loop of `run_sweep` over `to_run`: after each simulation
the checkpoint entry for its name is set to `complete`/`failed` and the
checkpoint is saved (the returned list records each saved snapshot in
order); on failure with `stop_on_error` the loop breaks.  `runResult sim`
is the success bit of `run_simulation` for that simulation. -/
def run_sweep_loop (runResult : SimCfg → Bool) (stop_on_error : Bool) :
    List SimCfg → Checkpoint → Checkpoint × List Checkpoint
  | [], cp => (cp, [])
  | sim :: rest, cp =>
      let ok := runResult sim
      let cp2 := cpSet cp sim.name (if ok then "complete" else "failed")
      if !ok && stop_on_error then (cp2, [cp2])
      else
        let next := run_sweep_loop runResult stop_on_error rest cp2
        (next.1, cp2 :: next.2)

/-- Model of `run_sweep(args)` up to logging: load the checkpoint only when
`--resume` was given, scan, then execute.  Returns the final checkpoint, the
saved snapshots, and the `to_run`/`skipped` split. -/
def run_sweep (fileExists validate : String → Bool) (runResult : SimCfg → Bool)
    (resume stop_on_error : Bool) (cpFileExists : Bool)
    (cpRead : Option Checkpoint) (sims : List SimCfg) :
    Checkpoint × List Checkpoint × List SimCfg × List SimCfg :=
  let cp0 := if resume then load_checkpoint cpFileExists cpRead else []
  let scanned := scanSims fileExists validate cp0 sims
  let loop := run_sweep_loop runResult stop_on_error scanned.1 cp0
  (loop.1, loop.2, scanned.1, scanned.2)

/-- Default `SimCfg`, used only as the out-of-range value of `getD`. -/
def simDefault : SimCfg := { name := "", output := "" }

/-- Concrete simulation configuration used by witnesses. -/
def simA : SimCfg := { name := "A", output := "a.h5" }

/-! ## Theorems -/

/-- Unfolding of the `run_population` loop into a map over the grid. -/
theorem run_population_eq_map (evolveFn : GridRow → Except String EvolvedBinary)
    (grid : List GridRow) :
    run_population evolveFn grid = grid.map (fun row =>
      match evolveFn row with
      | Except.ok b => ResultRow.ok (extract_CE_data b row)
      | Except.error e => ResultRow.err row.M1 row.M2 row.P_orb row.Z e) := by
  induction grid with
  | nil => rfl
  | cons a t ih => simp [run_population, ih]

/-- C1: the claim says the external library is configured as a function of
the sweep parameters.  The code contradicts this: `setup_simulation_properties`
never reads its `alpha_CE` argument and `evolve_binary` never reads its `Z`
argument, so the built configuration and the constructed-and-evolved binary
are identical across all values of those parameters. -/
theorem setup_and_evolve_ignore_sweep_parameters :
    (∀ (base : SimKwargs) (metallicity a b : ℚ),
        setup_simulation_properties base metallicity a =
          setup_simulation_properties base metallicity b) ∧
    (∀ (evolveFn : BinaryInit → BinaryInit) (M1 M2 P Z1 Z2 : ℚ) (prop : SimKwargs),
        evolve_binary evolveFn M1 M2 P Z1 prop =
          evolve_binary evolveFn M1 M2 P Z2 prop) :=
  ⟨fun _ _ _ _ => rfl, fun _ _ _ _ _ _ _ => rfl⟩

/-- C2: `wilson_ci` returns the Clopper-Pearson interval as percentages:
`(0, 0)` for `n = 0`; `(0, 100 * (1 - alpha^(1/n)))` for `k = 0`;
`(100 * alpha^(1/n), 100)` for `k = n`; and the two `beta.ppf` quantiles
times 100 for `0 < k < n`. -/
theorem wilson_ci_clopper_pearson (betaPpf : ℚ → ℚ → ℚ → ℚ) (powInv : ℚ → ℕ → ℚ)
    (k n : ℕ) (alpha : ℚ) (halpha0 : 0 < alpha) (halpha1 : alpha < 1) :
    (n = 0 → wilson_ci betaPpf powInv k n alpha = (0, 0)) ∧
    (n ≠ 0 → k = 0 →
      wilson_ci betaPpf powInv k n alpha = (0, 100 * (1 - powInv alpha n))) ∧
    (n ≠ 0 → k = n →
      wilson_ci betaPpf powInv k n alpha = (100 * powInv alpha n, 100)) ∧
    (0 < k → k < n →
      wilson_ci betaPpf powInv k n alpha =
        (100 * betaPpf (alpha / 2) (k : ℚ) ((n : ℚ) - (k : ℚ) + 1),
         100 * betaPpf (1 - alpha / 2) ((k : ℚ) + 1) ((n : ℚ) - (k : ℚ)))) := by
  refine ⟨?_, ?_, ?_, ?_⟩
  · intro hn; simp [wilson_ci, hn]
  · intro hn hk; simp [wilson_ci, hn, hk, mul_comm]
  · intro hn hk
    have hk0 : k ≠ 0 := by omega
    simp [wilson_ci, hn, hk, hk0, mul_comm]
  · intro hk hkn
    have hn : n ≠ 0 := by omega
    have hk0 : k ≠ 0 := by omega
    have hkn2 : k ≠ n := by omega
    simp [wilson_ci, hn, hk0, hkn2, hk, hkn, mul_comm]

/-- Witness for C2 at concrete oracles and `k = 1`, `n = 2`, `alpha = 1/2`. -/
theorem wilson_ci_clopper_pearson_witness :
    wilson_ci (fun _ _ _ => (3 : ℚ)) (fun _ _ => 0) 1 2 (1 / 2) = (100 * 3, 100 * 3) :=
  (wilson_ci_clopper_pearson (fun _ _ _ => (3 : ℚ)) (fun _ _ => 0) 1 2 (1 / 2)
    (by norm_num) (by norm_num)).2.2.2 (by norm_num) (by norm_num)

/-- Elementwise description of the `run_population` output. -/
theorem run_population_getD (evolveFn : GridRow → Except String EvolvedBinary)
    (grid : List GridRow) :
    ∀ i, i < grid.length →
      (run_population evolveFn grid).getD i rowDefault =
        match evolveFn (grid.getD i gridDefault) with
        | Except.ok b => ResultRow.ok (extract_CE_data b (grid.getD i gridDefault))
        | Except.error e =>
            ResultRow.err (grid.getD i gridDefault).M1 (grid.getD i gridDefault).M2
              (grid.getD i gridDefault).P_orb (grid.getD i gridDefault).Z e := by
  induction grid with
  | nil => intro i hi; simp at hi
  | cons row rest ih =>
    intro i hi
    cases i with
    | zero => rfl
    | succ j => exact ih j (by simpa using hi)

/-- C7: `run_population` produces exactly one result row per grid row; a row
whose evolution raises contributes an error record carrying its initial
conditions and the error string, and a successful row contributes the
extracted record. -/
theorem run_population_one_row_per_binary
    (evolveFn : GridRow → Except String EvolvedBinary) (grid : List GridRow) :
    (run_population evolveFn grid).length = grid.length ∧
    (∀ i, i < grid.length →
      (∀ e, evolveFn (grid.getD i gridDefault) = Except.error e →
        (run_population evolveFn grid).getD i rowDefault =
          ResultRow.err (grid.getD i gridDefault).M1 (grid.getD i gridDefault).M2
            (grid.getD i gridDefault).P_orb (grid.getD i gridDefault).Z e) ∧
      (∀ b, evolveFn (grid.getD i gridDefault) = Except.ok b →
        (run_population evolveFn grid).getD i rowDefault =
          ResultRow.ok (extract_CE_data b (grid.getD i gridDefault)))) := by
  constructor
  · rw [run_population_eq_map]; simp
  · intro i hi
    have hres := run_population_getD evolveFn grid i hi
    constructor
    · intro e he; rw [hres, he]
    · intro b hb; rw [hres, hb]

/-- Witness for C7 on a one-row grid whose evolution fails. -/
theorem run_population_one_row_per_binary_witness :
    (run_population (fun _ => Except.error "boom") [gridDefault]).getD 0 rowDefault =
      ResultRow.err 0 0 0 0 "boom" :=
  ((run_population_one_row_per_binary (fun _ => Except.error "boom")
    [gridDefault]).2 0 (by decide)).1 "boom" rfl

/-- C8: every record built by `extract_CE_data` copies the initial masses,
period, metallicity and mass ratio from the input conditions, carries the
final-state scalars from the binary, and has `lambda_CE = none` whenever no
CE event is found or the history lacks the lambda column. -/
theorem extract_CE_data_fields (binary : EvolvedBinary) (ic : GridRow) :
    (extract_CE_data binary ic).M1_initial = ic.M1 ∧
    (extract_CE_data binary ic).M2_initial = ic.M2 ∧
    (extract_CE_data binary ic).P_initial = ic.P_orb ∧
    (extract_CE_data binary ic).Z = ic.Z ∧
    (extract_CE_data binary ic).q_initial = ic.q ∧
    (extract_CE_data binary ic).final_state = binary.state ∧
    (extract_CE_data binary ic).final_M1 = binary.star1_mass ∧
    (extract_CE_data binary ic).final_M2 = binary.star2_mass ∧
    (extract_CE_data binary ic).final_P = binary.orbital_period ∧
    (hasCEEvent binary = false → (extract_CE_data binary ic).lambda_CE = none) ∧
    (∀ h, binary.history = some h → h.has_lambda = false →
      (extract_CE_data binary ic).lambda_CE = none) := by
  cases hb : binary.history with
  | none => simp [extract_CE_data, hb, hasCEEvent]
  | some h =>
    by_cases he : h.has_event
    · cases hce : ceEventRows h with
      | nil => simp [extract_CE_data, hasCEEvent, hb, he, hce]
      | cons r0 rest =>
        simp [extract_CE_data, hasCEEvent, hb, he, hce]
        exact fun hf ht => absurd ht (by simp [hf])
    · simp [extract_CE_data, hasCEEvent, hb, he]

/-- Witness for C8 on a binary whose history has a CE row but no lambda
column. -/
theorem extract_CE_data_fields_witness :
    (extract_CE_data exampleBinaryNoLambda gridDefault).lambda_CE = none :=
  (extract_CE_data_fields exampleBinaryNoLambda
    gridDefault).2.2.2.2.2.2.2.2.2.2 exampleHistoryNoLambda rfl rfl

/-- C9: `survived_CE` can only be set together with `CE_occurred`, and when
no CE event is visible in the history (including when history extraction
fails) the record keeps `survived_CE = false`, `lambda_CE = none` and
`donor_state = none`. -/
theorem extract_CE_data_survival_invariant (binary : EvolvedBinary) (ic : GridRow) :
    ((extract_CE_data binary ic).survived_CE = true →
      (extract_CE_data binary ic).CE_occurred = true) ∧
    (hasCEEvent binary = false →
      (extract_CE_data binary ic).survived_CE = false ∧
      (extract_CE_data binary ic).lambda_CE = none ∧
      (extract_CE_data binary ic).donor_state = none) := by
  cases hb : binary.history with
  | none => simp [extract_CE_data, hb, hasCEEvent]
  | some h =>
    by_cases he : h.has_event
    · cases hce : ceEventRows h with
      | nil => simp [extract_CE_data, hasCEEvent, hb, he, hce]
      | cons r0 rest => simp [extract_CE_data, hasCEEvent, hb, he, hce]
    · simp [extract_CE_data, hasCEEvent, hb, he]

/-- Witness for C9: a surviving CE binary has `CE_occurred = true`, and a
binary with no history keeps the defaults. -/
theorem extract_CE_data_survival_invariant_witness :
    (extract_CE_data exampleBinaryCE gridDefault).CE_occurred = true ∧
    (extract_CE_data exampleBinaryNoHistory gridDefault).survived_CE = false :=
  ⟨(extract_CE_data_survival_invariant exampleBinaryCE gridDefault).1 (by decide),
   ((extract_CE_data_survival_invariant exampleBinaryNoHistory gridDefault).2
      (by decide)).1⟩

/-- A `getD` at an in-range index is a member of the list. -/
theorem getD_mem {α : Type} (l : List α) (k : ℕ) (d : α) (h : k < l.length) :
    l.getD k d ∈ l := by
  rw [List.getD_eq_getElem l d h]
  exact List.getElem_mem h

/-- Every element of a with-replacement sample of a non-empty list is a
member of the list, and the sample has the requested size. -/
theorem sampleWithReplacement_spec {α : Type} (data : List α) (d : α)
    (pick : ℕ → ℕ) (k : ℕ) (hne : data ≠ []) :
    (sampleWithReplacement data d pick k).length = k ∧
    ∀ x ∈ sampleWithReplacement data d pick k, x ∈ data := by
  have hpos : 0 < data.length := List.length_pos.mpr hne
  constructor
  · simp [sampleWithReplacement]
  · intro x hx
    simp only [sampleWithReplacement, List.mem_map, List.mem_range] at hx
    obtain ⟨j, _, rfl⟩ := hx
    exact getD_mem data _ d (Nat.mod_lt _ hpos)

/-- The bootstrap percentage list drawn inside `bootstrap_rate` satisfies
`drawnRates` for a non-empty data list. -/
theorem bootstrapRates_drawn (pick : ℕ → ℕ → ℕ) (data : List Bool)
    (n_iterations : ℕ) (hne : data ≠ []) :
    drawnRates data (fun b => b) n_iterations (bootstrapRates pick data n_iterations) := by
  constructor
  · simp [bootstrapRates]
  · intro q hq
    simp only [bootstrapRates, List.mem_map, List.mem_range] at hq
    obtain ⟨i, _, rfl⟩ := hq
    refine ⟨sampleWithReplacement data false (pick i) data.length, ?_, ?_, rfl⟩
    · exact (sampleWithReplacement_spec data false (pick i) data.length hne).1
    · exact (sampleWithReplacement_spec data false (pick i) data.length hne).2

/-- C3: `bootstrap_rate` returns all zeros on an empty array, and otherwise
returns the mean, the standard deviation (square-root oracle applied to the
population variance), and the `alpha/2` and `1 - alpha/2` percentiles of a
list of `n_iterations` bootstrap percentages, each the proportion (times
100) of a size-`n` with-replacement resample of the data. -/
theorem bootstrap_rate_spec (pick : ℕ → ℕ → ℕ) (sqrtFn : ℚ → ℚ)
    (data : List Bool) (n_iterations : ℕ) (alpha : ℚ) :
    (bootstrap_rate pick sqrtFn [] n_iterations alpha =
      { mean := 0, std := 0, CI_low := 0, CI_high := 0 }) ∧
    (data ≠ [] →
      drawnRates data (fun b => b) n_iterations (bootstrapRates pick data n_iterations) ∧
      bootstrap_rate pick sqrtFn data n_iterations alpha =
        { mean := listMean (bootstrapRates pick data n_iterations)
          std := sqrtFn (listVar (bootstrapRates pick data n_iterations))
          CI_low := percentile (bootstrapRates pick data n_iterations) (alpha / 2 * 100)
          CI_high := percentile (bootstrapRates pick data n_iterations)
            ((1 - alpha / 2) * 100) }) := by
  constructor
  · rfl
  · intro hne
    refine ⟨bootstrapRates_drawn pick data n_iterations hne, ?_⟩
    have hlen : data.length ≠ 0 := Nat.pos_iff_ne_zero.mp (List.length_pos.mpr hne)
    simp [bootstrap_rate, hlen]

/-- Witness for C3 on the two-element data set `[true, false]`. -/
theorem bootstrap_rate_spec_witness :
    bootstrap_rate (fun _ _ => 0) id [true, false] 2 (1 / 20) =
      { mean := listMean (bootstrapRates (fun _ _ => 0) [true, false] 2)
        std := id (listVar (bootstrapRates (fun _ _ => 0) [true, false] 2))
        CI_low := percentile (bootstrapRates (fun _ _ => 0) [true, false] 2)
          (1 / 20 / 2 * 100)
        CI_high := percentile (bootstrapRates (fun _ _ => 0) [true, false] 2)
          ((1 - 1 / 20 / 2) * 100) } :=
  ((bootstrap_rate_spec (fun _ _ => 0) id [true, false] 2 (1 / 20)).2 (by decide)).2

/-- A `filterMap` that either skips an element or maps it is the map over
the filtered list. -/
theorem filterMap_skip {α β : Type} (l : List α) (c : α → Prop) [DecidablePred c]
    (f : α → β) :
    (l.filterMap (fun x => if c x then none else some (f x))) =
      (l.filter (fun x => !(decide (c x)))).map f := by
  induction l with
  | nil => rfl
  | cons a t ih => by_cases h : c a <;> simp [h, ih]

/-- The within-bin survival percentages satisfy `drawnRates` for a non-empty
bin. -/
theorem survivalRates_drawn (pick : ℕ → ℕ → ℕ) (bin_data : List CERec)
    (n_iterations : ℕ) (hne : bin_data ≠ []) :
    drawnRates bin_data (fun r => r.survived_CE) n_iterations
      (survivalRates pick bin_data n_iterations) := by
  constructor
  · simp [survivalRates]
  · intro q hq
    simp only [survivalRates, List.mem_map, List.mem_range] at hq
    obtain ⟨i, _, rfl⟩ := hq
    refine ⟨sampleWithReplacement bin_data { lambda_CE := 0, survived_CE := false }
      (pick i) bin_data.length, ?_, ?_, rfl⟩
    · exact (sampleWithReplacement_spec bin_data _ (pick i) bin_data.length hne).1
    · exact (sampleWithReplacement_spec bin_data _ (pick i) bin_data.length hne).2

/-- C4: `bootstrap_survival_by_lambda` yields, in order, one row for each of
the `m` half-open bins `[e_i, e_{i+1})` that contains at least one record
(empty bins yield no row); each row's `N_Systems` is the count of records
with `e_i <= lambda_CE < e_{i+1}`; for strictly increasing edges, a record
whose lambda equals the last edge falls in no bin; and the survival
statistics of a non-empty bin come from with-replacement resamples of that
bin's records. -/
theorem bootstrap_survival_by_lambda_spec (pick : ℕ → ℕ → ℕ → ℕ) (sqrtFn : ℚ → ℚ)
    (ce_data : List CERec) (lambda_bins : List ℚ) (n_iterations : ℕ)
    (hsorted : lambda_bins.Pairwise (fun a b => a < b)) :
    (bootstrap_survival_by_lambda pick sqrtFn ce_data lambda_bins n_iterations =
      ((List.range (lambda_bins.length - 1)).filter
          (fun i => decide (0 < (binData ce_data lambda_bins i).length))).map
        (binRowOf pick sqrtFn ce_data lambda_bins n_iterations)) ∧
    (∀ i, (binRowOf pick sqrtFn ce_data lambda_bins n_iterations i).N_Systems =
      (ce_data.filter (fun r =>
        decide (lambda_bins.getD i 0 ≤ r.lambda_CE) &&
          decide (r.lambda_CE < lambda_bins.getD (i + 1) 0))).length) ∧
    (∀ r : CERec, r.lambda_CE = lambda_bins.getD (lambda_bins.length - 1) 0 →
      ∀ i, i < lambda_bins.length - 1 → binPred lambda_bins i r = false) ∧
    (∀ i, binData ce_data lambda_bins i ≠ [] →
      drawnRates (binData ce_data lambda_bins i) (fun r => r.survived_CE)
        n_iterations
        (survivalRates (pick i) (binData ce_data lambda_bins i) n_iterations)) := by
  refine ⟨?_, ?_, ?_, ?_⟩
  · rw [bootstrap_survival_by_lambda,
      filterMap_skip (List.range (lambda_bins.length - 1))
        (fun i => (binData ce_data lambda_bins i).length = 0)
        (binRowOf pick sqrtFn ce_data lambda_bins n_iterations)]
    congr 1
    apply List.filter_congr
    intro i _
    rcases Nat.eq_zero_or_pos (binData ce_data lambda_bins i).length with h | h
    · simp [h]
    · simp [h, Nat.pos_iff_ne_zero.mp h]
  · intro i; rfl
  · intro r hr i hi
    have hlen : 1 ≤ lambda_bins.length := by omega
    have hi1 : i + 1 < lambda_bins.length := by omega
    have hlast : lambda_bins.length - 1 < lambda_bins.length := by omega
    have hle : lambda_bins.getD (i + 1) 0 ≤ lambda_bins.getD (lambda_bins.length - 1) 0 := by
      rw [List.getD_eq_getElem lambda_bins 0 hi1, List.getD_eq_getElem lambda_bins 0 hlast]
      rcases Nat.lt_or_ge (i + 1) (lambda_bins.length - 1) with hlt | hge
      · exact le_of_lt (List.pairwise_iff_getElem.mp hsorted (i + 1)
          (lambda_bins.length - 1) hi1 hlast hlt)
      · have : i + 1 = lambda_bins.length - 1 := by omega
        simp [this]
    rw [← hr] at hle
    simp only [binPred, Bool.and_eq_false_iff, decide_eq_false_iff_not, not_lt]
    right
    exact hle
  · intro i hne
    exact survivalRates_drawn (pick i) (binData ce_data lambda_bins i) n_iterations hne

/-- Witness for C4 on the edges `[0, 1, 2]` and a single record: a record
with lambda equal to the last edge is excluded from bin 0. -/
theorem bootstrap_survival_by_lambda_spec_witness :
    binPred [0, 1, 2] 0 { lambda_CE := 2, survived_CE := true } = false :=
  (bootstrap_survival_by_lambda_spec (fun _ _ _ => 0) id
    [{ lambda_CE := 0, survived_CE := true }] [0, 1, 2] 1
    (by decide)).2.2.1 { lambda_CE := 2, survived_CE := true } (by decide) 0 (by decide)

/-- The execution loop without `--stop-on-error`: one checkpoint save per
executed simulation, and the snapshot saved right after simulation `j`
records that simulation's name with `complete` on success and `failed`
otherwise. -/
theorem run_sweep_loop_saves (runResult : SimCfg → Bool) (to_run : List SimCfg) :
    ∀ cp : Checkpoint,
      (run_sweep_loop runResult false to_run cp).2.length = to_run.length ∧
      ∀ j, j < to_run.length →
        List.lookup (to_run.getD j simDefault).name
            ((run_sweep_loop runResult false to_run cp).2.getD j []) =
          some (if runResult (to_run.getD j simDefault) then "complete" else "failed") := by
  induction to_run with
  | nil =>
    intro cp
    exact ⟨rfl, fun j hj => absurd hj (by simp)⟩
  | cons a t ih =>
    intro cp
    constructor
    · simp [run_sweep_loop, (ih _).1]
    · intro j hj
      cases j with
      | zero => simp [run_sweep_loop, cpSet, List.lookup]
      | succ m =>
        have hrec := (ih (cpSet cp a.name
          (if runResult a then "complete" else "failed"))).2 m (by simpa using hj)
        simpa [run_sweep_loop] using hrec

/-- The execution loop with `--stop-on-error`: it runs (and saves) exactly up
to and including the first failing simulation. -/
theorem run_sweep_loop_len_stop (runResult : SimCfg → Bool) (to_run : List SimCfg) :
    ∀ cp : Checkpoint,
      (run_sweep_loop runResult true to_run cp).2.length =
        min to_run.length (to_run.findIdx (fun s => !runResult s) + 1) := by
  induction to_run with
  | nil => intro cp; simp [run_sweep_loop]
  | cons a t ih =>
    intro cp
    by_cases hok : runResult a
    · have h1 : (run_sweep_loop runResult true (a :: t) cp).2.length =
          (run_sweep_loop runResult true t (cpSet cp a.name "complete")).2.length + 1 := by
        simp [run_sweep_loop, hok]
      rw [h1, ih]
      simp only [List.findIdx_cons, hok]
      simp
      omega
    · simp [run_sweep_loop, hok, List.findIdx_cons]

/-- C5: a configured simulation is skipped exactly when its output file
exists and validates or the loaded checkpoint (empty unless `--resume`)
marks it complete; each executed simulation's checkpoint entry is set to
`complete`/`failed` and saved before the next one starts; and
`load_checkpoint` returns the empty dict when the file is missing or
unreadable. -/
theorem run_sweep_skip_and_checkpoint (fe validate : String → Bool)
    (runResult : SimCfg → Bool) (resume stop_on_error : Bool)
    (cpFileExists : Bool) (cpRead : Option Checkpoint) (sims : List SimCfg) :
    (∀ s ∈ sims,
      (s ∈ (run_sweep fe validate runResult resume stop_on_error cpFileExists
              cpRead sims).2.2.2 ↔
        ((fe s.output = true ∧ validate s.output = true) ∨
          cpComplete (if resume then load_checkpoint cpFileExists cpRead else [])
            s.name = true))) ∧
    (resume = false →
      (if resume then load_checkpoint cpFileExists cpRead else []) = ([] : Checkpoint)) ∧
    (∀ (to_run : List SimCfg) (cp : Checkpoint),
      (run_sweep_loop runResult false to_run cp).2.length = to_run.length ∧
      ∀ j, j < to_run.length →
        List.lookup (to_run.getD j simDefault).name
            ((run_sweep_loop runResult false to_run cp).2.getD j []) =
          some (if runResult (to_run.getD j simDefault) then "complete" else "failed")) ∧
    (∀ r : Option Checkpoint, load_checkpoint false r = []) ∧
    (load_checkpoint cpFileExists none = []) := by
  refine ⟨?_, ?_, ?_, ?_, ?_⟩
  · intro s hs
    simp [run_sweep, scanSims, List.mem_filter, hs, skipSim]
  · intro h; simp [h]
  · exact run_sweep_loop_saves runResult
  · intro r; rfl
  · cases cpFileExists <;> rfl

/-- Witness for C5: a simulation whose output exists and validates lands in
the skipped list. -/
theorem run_sweep_skip_and_checkpoint_witness :
    simA ∈ (run_sweep (fun _ => true) (fun _ => true) (fun _ => true)
      false false false none [simA]).2.2.2 :=
  ((run_sweep_skip_and_checkpoint (fun _ => true) (fun _ => true) (fun _ => true)
      false false false none [simA]).1 simA (by simp)).mpr (Or.inl ⟨rfl, rfl⟩)

/-- C6: `run_simulation` (not in dry-run mode) succeeds exactly when the
subprocess exits with code 0 and the output validates; a timeout yields
`(false, "Timeout")` and an exception yields failure with the exception
message, instead of raising; and `run_sweep` executes (and checkpoints) all
remaining simulations after a failure unless `--stop-on-error`, in which
case it stops right after the first failure. -/
theorem run_simulation_success_and_continue (outcome : ProcOutcome)
    (validate : String → Bool) (sim : SimCfg) :
    ((run_simulation outcome validate sim false).1 = true ↔
      (outcome = ProcOutcome.exited 0 ∧ validate sim.output = true)) ∧
    (run_simulation ProcOutcome.timedOut validate sim false = (false, "Timeout")) ∧
    (∀ e, run_simulation (ProcOutcome.excRaised e) validate sim false = (false, e)) ∧
    (∀ (runResult : SimCfg → Bool) (to_run : List SimCfg) (cp : Checkpoint),
      (run_sweep_loop runResult false to_run cp).2.length = to_run.length) ∧
    (∀ (runResult : SimCfg → Bool) (to_run : List SimCfg) (cp : Checkpoint),
      (run_sweep_loop runResult true to_run cp).2.length =
        min to_run.length (to_run.findIdx (fun s => !runResult s) + 1)) := by
  refine ⟨?_, rfl, fun e => rfl, ?_, ?_⟩
  · constructor
    · intro h
      cases outcome with
      | exited code =>
        by_cases hc : code = 0
        · subst hc
          by_cases hv : validate sim.output
          · exact ⟨rfl, hv⟩
          · simp [run_simulation, hv] at h
        · simp [run_simulation, hc] at h
      | timedOut => simp [run_simulation] at h
      | excRaised e => simp [run_simulation] at h
    · rintro ⟨rfl, hv⟩
      simp [run_simulation, hv]
  · exact fun rr l cp => (run_sweep_loop_saves rr l cp).1
  · exact fun rr l cp => run_sweep_loop_len_stop rr l cp

/-- Witness for C6: a validated zero-exit run is reported as success. -/
theorem run_simulation_success_and_continue_witness :
    (run_simulation (ProcOutcome.exited 0) (fun _ => true) simA false).1 = true :=
  (run_simulation_success_and_continue (ProcOutcome.exited 0) (fun _ => true)
    simA).1.mpr ⟨rfl, rfl⟩

/-- Every entry of `linspace a b n` with positive endpoints is positive
(each entry is a convex combination of `a` and `b`). -/
theorem linspace_pos (a b : ℚ) (n : ℕ) (ha : 0 < a) (hb : 0 < b) :
    ∀ x ∈ linspace a b n, 0 < x := by
  intro x hx
  simp only [linspace] at hx
  obtain ⟨i, hiR, rfl⟩ := List.mem_map.mp hx
  have hi : i < n := List.mem_range.mp hiR
  rcases Nat.lt_or_ge n 2 with hn | hn
  · have hi0 : i = 0 := by omega
    subst hi0
    simpa using ha
  · have hc : (0 : ℚ) < (n : ℚ) - 1 := by
      have h2 : (2 : ℚ) ≤ (n : ℚ) := by exact_mod_cast hn
      linarith
    have hiub : (i : ℚ) + 1 ≤ (n : ℚ) := by exact_mod_cast hi
    have hi0 : (0 : ℚ) ≤ (i : ℚ) := by positivity
    have hrw : a + (i : ℚ) * (b - a) / ((n : ℚ) - 1) =
        a + ((i : ℚ) / ((n : ℚ) - 1)) * (b - a) := by ring
    rw [hrw]
    set t : ℚ := (i : ℚ) / ((n : ℚ) - 1) with ht
    have ht0 : 0 ≤ t := div_nonneg hi0 (le_of_lt hc)
    have ht1 : t ≤ 1 := (div_le_one hc).mpr (by linarith)
    rcases eq_or_lt_of_le ht0 with h0 | h0
    · rw [← h0]; simpa using ha
    · have htb : 0 < t * b := mul_pos h0 hb
      nlinarith [mul_nonneg (sub_nonneg.mpr ht1) (le_of_lt ha)]

/-- Decomposition of membership in the full initial-conditions grid. -/
theorem mem_full_binary_grid (logspaceFn : ℚ → ℚ → ℕ → List ℚ)
    (M1_range M2_range P_range : ℚ × ℚ × ℕ) (metallicities : List ℚ)
    (row : GridRow)
    (h : row ∈ full_binary_grid logspaceFn M1_range M2_range P_range metallicities) :
    ∃ M1 ∈ linspace M1_range.1 M1_range.2.1 M1_range.2.2,
      ∃ M2 ∈ linspace M2_range.1 M2_range.2.1 M2_range.2.2,
        ∃ P Z, M2 ≤ M1 ∧
          row = { M1 := M1, M2 := M2, P_orb := P, Z := Z, q := M2 / M1 } := by
  simp only [full_binary_grid, List.mem_flatMap] at h
  obtain ⟨Z, _, M1, hM1, M2, hM2, hrow⟩ := h
  by_cases hle : M2 ≤ M1
  · rw [if_pos hle] at hrow
    simp only [List.mem_map] at hrow
    obtain ⟨P, _, rfl⟩ := hrow
    exact ⟨M1, hM1, M2, hM2, P, Z, hle, rfl⟩
  · rw [if_neg hle] at hrow
    simp at hrow

/-- C10 (amended): every grid row has `M1 >= M2` and, the mass ranges being
positive, a mass ratio `q = M2 / M1` in `(0, 1]`; and when `n_samples` is
given, nonzero and smaller than the full grid, the result has exactly
`n_samples` rows, each drawn from the full grid.  (The nonzero proviso is
forced by the Python truthiness test `if n_samples and ...`.) -/
theorem create_binary_grid_grid_and_sampling
    (logspaceFn : ℚ → ℚ → ℕ → List ℚ) (pick : ℕ → ℕ)
    (M1_range M2_range P_range : ℚ × ℚ × ℕ) (metallicities : List ℚ)
    (n_samples : Option ℕ)
    (h1 : 0 < M1_range.1) (h2 : 0 < M1_range.2.1)
    (h3 : 0 < M2_range.1) (h4 : 0 < M2_range.2.1) :
    (∀ row ∈ create_binary_grid logspaceFn pick M1_range M2_range P_range
        metallicities n_samples,
      row.M2 ≤ row.M1 ∧ row.q = row.M2 / row.M1 ∧ 0 < row.q ∧ row.q ≤ 1) ∧
    (∀ k, n_samples = some k → k ≠ 0 →
      k < (full_binary_grid logspaceFn M1_range M2_range P_range metallicities).length →
      (create_binary_grid logspaceFn pick M1_range M2_range P_range metallicities
          n_samples).length = k ∧
      ∀ row ∈ create_binary_grid logspaceFn pick M1_range M2_range P_range
          metallicities n_samples,
        row ∈ full_binary_grid logspaceFn M1_range M2_range P_range metallicities) := by
  have hfull : ∀ row ∈ full_binary_grid logspaceFn M1_range M2_range P_range
      metallicities,
      row.M2 ≤ row.M1 ∧ row.q = row.M2 / row.M1 ∧ 0 < row.q ∧ row.q ≤ 1 := by
    intro row hrow
    obtain ⟨M1, hM1, M2, hM2, P, Z, hle, rfl⟩ :=
      mem_full_binary_grid logspaceFn M1_range M2_range P_range metallicities row hrow
    have hM1pos := linspace_pos M1_range.1 M1_range.2.1 M1_range.2.2 h1 h2 M1 hM1
    have hM2pos := linspace_pos M2_range.1 M2_range.2.1 M2_range.2.2 h3 h4 M2 hM2
    exact ⟨hle, rfl, div_pos hM2pos hM1pos, (div_le_one hM1pos).mpr hle⟩
  have hmem : ∀ row ∈ create_binary_grid logspaceFn pick M1_range M2_range P_range
      metallicities n_samples,
      row ∈ full_binary_grid logspaceFn M1_range M2_range P_range metallicities := by
    intro row hrow
    cases hn : n_samples with
    | none =>
      rw [hn] at hrow
      simpa [create_binary_grid] using hrow
    | some k =>
      rw [hn] at hrow
      by_cases hc : k ≠ 0 ∧
          k < (full_binary_grid logspaceFn M1_range M2_range P_range metallicities).length
      · simp only [create_binary_grid, if_pos hc] at hrow
        have hne : full_binary_grid logspaceFn M1_range M2_range P_range metallicities ≠ [] := by
          intro hnil
          rw [hnil] at hc
          simp at hc
        exact (sampleWithReplacement_spec _ _ pick k hne).2 row hrow
      · simpa [create_binary_grid, if_neg hc] using hrow
  refine ⟨fun row hrow => hfull row (hmem row hrow), ?_⟩
  intro k hk hk0 hklen
  subst hk
  have hc : k ≠ 0 ∧
      k < (full_binary_grid logspaceFn M1_range M2_range P_range metallicities).length :=
    ⟨hk0, hklen⟩
  refine ⟨?_, fun row hrow => hmem row hrow⟩
  simp [create_binary_grid, if_pos hc, sampleWithReplacement]

/-- Counterexample to C10 as stated: with `n_samples = 0` (given and smaller
than the full grid size 1) the Python truthiness test skips sampling and the
full grid of length 1 is returned instead of 0 rows; and with negative mass
ranges the recorded ratio `q = (-2)/(-1) = 2` exceeds 1. -/
theorem create_binary_grid_claim_counterexample :
    (create_binary_grid (fun _ _ _ => [1]) (fun _ => 0)
        (1, 1, 1) (1, 1, 1) (1, 1, 1) [1] (some 0)).length = 1 ∧
    (∃ row ∈ full_binary_grid (fun _ _ _ => [1])
        (-1, -1, 1) (-2, -2, 1) (1, 1, 1) [1], 1 < row.q) := by
  constructor
  · have hx : linspace 1 1 1 = [1] := by
      simp [linspace]
    simp [create_binary_grid, full_binary_grid, hx]
  · have hx1 : linspace (-1) (-1) 1 = [-1] := by
      simp [linspace]
    have hx2 : linspace (-2) (-2) 1 = [-2] := by
      simp [linspace, List.range_succ]
    refine ⟨{ M1 := -1, M2 := -2, P_orb := 1, Z := 1, q := (-2 : ℚ) / (-1 : ℚ) }, ?_, ?_⟩
    · simp [full_binary_grid, hx1, hx2, (by norm_num : (-2 : ℚ) ≤ -1)]
    · norm_num

/-- Witness for C10 (amended) with a two-row full grid sampled down to one
row. -/
theorem create_binary_grid_grid_and_sampling_witness :
    (create_binary_grid (fun _ _ _ => [1, 1]) (fun _ => 0)
        (1, 1, 1) (1, 1, 1) (1, 1, 2) [1] (some 1)).length = 1 := by
  have hx : linspace 1 1 1 = [1] := by
    simp [linspace, List.range_succ]
  have hlen : 1 < (full_binary_grid (fun _ _ _ => [1, 1])
      (1, 1, 1) (1, 1, 1) (1, 1, 2) [1]).length := by
    simp [full_binary_grid, hx]
  exact ((create_binary_grid_grid_and_sampling (fun _ _ _ => [1, 1])
    (fun _ => 0) (1, 1, 1) (1, 1, 1) (1, 1, 2) [1] (some 1) (by norm_num)
    (by norm_num) (by norm_num) (by norm_num)).2 1 rfl (by norm_num) hlen).1

end CEphysics
